import Mathlib

/-!
Verification of the HeartBeat WebSocket service's connection health subsystem:
admission control (`ConnectionManager`), per-connection ping rate limiting
(`ConnectionState`), the heartbeat monitors (`EnhancedHeartbeat`,
`ClientHeartbeat`) and the connection handler's message loop
(`handleMessageLoop`).  Time is modelled in seconds as `Nat`; Go's zero
`time.Time` is modelled as `none`; Go `int` counters that the code keeps
non-negative by construction are modelled as `Nat`, while the admission
counts (where non-negativity is a claimed invariant) are modelled as `Int`.
-/

namespace HeartBeat

/-! ## Rate limiting state (ConnectionState) -/

/-- Rate limiting constant: minimum interval between pings, in seconds. -/
def minPingInterval : Nat := 10

/-- Rate limiting constant: max allowed violations before disconnect. -/
def maxViolations : Nat := 3

/-- Per-connection state for rate-limiting ping requests.  The two zero-able
Go timestamps are `Option Nat` with `none` for the zero `time.Time`. -/
structure ConnectionState where
  lastPing : Option Nat
  violations : Nat
  lastClientPing : Option Nat
  clientViolations : Nat
deriving DecidableEq, Repr

/-- The Go zero value of `ConnectionState`. -/
def freshConnectionState : ConnectionState :=
  { lastPing := none, violations := 0, lastClientPing := none, clientViolations := 0 }

/-- The state built by `ConnectionStateManager.GetOrCreate`, whose `lastPing`
is initialized to the creation time. -/
def GetOrCreateState (now : Nat) : ConnectionState :=
  { lastPing := some now, violations := 0, lastClientPing := none, clientViolations := 0 }

/-- Whether `time.Since(last)` is below `minPingInterval`.  A zero timestamp
(`none`) yields an astronomically large elapsed time, never below it. -/
def sinceBelowMin (last : Option Nat) (now : Nat) : Bool :=
  match last with
  | none => false
  | some t => now - t < minPingInterval

/-- Embeds `ConnectionState.RateLimitPing`: on a ping arriving before the
minimum interval the violation counter is incremented and, past the
threshold, `false` is returned without updating the timestamp; otherwise the
counter resets and the timestamp advances. -/
def ConnectionState.RateLimitPing (cs : ConnectionState) (now : Nat) :
    Bool × ConnectionState :=
  if sinceBelowMin cs.lastPing now then
    let cs1 := { cs with violations := cs.violations + 1 }
    if maxViolations < cs1.violations then
      (false, cs1)
    else
      (true, { cs1 with lastPing := some now })
  else
    (true, { cs with violations := 0, lastPing := some now })

/-- Embeds `ConnectionState.RateLimitClientPing`: the first client ping seeds
the timestamp; a rapid ping increments the violation counter and updates the
timestamp before the threshold test; a compliant ping resets the counter. -/
def ConnectionState.RateLimitClientPing (cs : ConnectionState) (now : Nat) :
    Bool × ConnectionState :=
  match cs.lastClientPing with
  | none => (true, { cs with lastClientPing := some now })
  | some t =>
    if now - t < minPingInterval then
      let cs1 := { cs with clientViolations := cs.clientViolations + 1,
                           lastClientPing := some now }
      if maxViolations < cs1.clientViolations then
        (false, cs1)
      else
        (true, cs1)
    else
      (true, { cs with clientViolations := 0, lastClientPing := some now })

/-- Runs `RateLimitClientPing` over a list of observation times, collecting
the returned booleans and the final state. -/
def runClientPings (cs : ConnectionState) : List Nat → List Bool × ConnectionState
  | [] => ([], cs)
  | t :: ts =>
    let r := cs.RateLimitClientPing t
    let rest := runClientPings r.2 ts
    (r.1 :: rest.1, rest.2)

/-- Runs `RateLimitPing` over a list of observation times, collecting the
returned booleans and the final state. -/
def runPings (cs : ConnectionState) : List Nat → List Bool × ConnectionState
  | [] => ([], cs)
  | t :: ts =>
    let r := cs.RateLimitPing t
    let rest := runPings r.2 ts
    (r.1 :: rest.1, rest.2)

/-! ## Rate-limited connection wrapper (RateLimitedConn) -/

/-- Result of the underlying `websocket.Conn.Read`. -/
inductive TransportRead where
  | msg (data : String)
  | readErr
deriving DecidableEq, Repr

/-- Result of `RateLimitedConn.Read`: a message, the rate-limit error built
from the current violation count, or a propagated transport error. -/
inductive WsReadResult where
  | ok (data : String)
  | rateLimitError (violations : Nat)
  | transportError
deriving DecidableEq, Repr

/-- Embeds `RateLimitedConn.Read`: the rate-limit gate runs first and a
`false` answer yields the rate-limit error; otherwise the underlying read
result is passed through. -/
def RateLimitedConnRead (cs : ConnectionState) (now : Nat)
    (underlying : TransportRead) : WsReadResult × ConnectionState :=
  match cs.RateLimitClientPing now with
  | (false, cs1) => (WsReadResult.rateLimitError cs1.clientViolations, cs1)
  | (true, cs1) =>
    match underlying with
    | TransportRead.msg d => (WsReadResult.ok d, cs1)
    | TransportRead.readErr => (WsReadResult.transportError, cs1)

/-! ## Admission control (ConnectionManager) -/

/-- The Go map from IP address to connection count, as an association list.
Lookup of an absent key yields 0, matching Go map semantics. -/
abbrev ConnTable := List (String × Int)

/-- Go map read: value of the first entry with the key, or 0. -/
def mapGet (m : ConnTable) (ip : String) : Int :=
  match m with
  | [] => 0
  | p :: rest => if p.1 = ip then p.2 else mapGet rest ip

/-- Go map write: replace the first entry with the key, or append. -/
def mapSet (m : ConnTable) (ip : String) (v : Int) : ConnTable :=
  match m with
  | [] => [(ip, v)]
  | p :: rest => if p.1 = ip then (ip, v) :: rest else p :: mapSet rest ip v

/-- Go map delete: remove the entries with the key. -/
def mapDelete (m : ConnTable) (ip : String) : ConnTable :=
  match m with
  | [] => []
  | p :: rest => if p.1 = ip then mapDelete rest ip else p :: mapDelete rest ip

/-- Whether the table holds an entry for the key. -/
def hasEntry (m : ConnTable) (ip : String) : Bool :=
  match m with
  | [] => false
  | p :: rest => if p.1 = ip then true else hasEntry rest ip

/-- Manages connection limits per IP address. -/
structure ConnectionManager where
  connections : ConnTable
  maxPerIP : Int
deriving DecidableEq, Repr

/-- Embeds `NewConnectionManager`. -/
def NewConnectionManager (maxPerIP : Int) : ConnectionManager :=
  { connections := [], maxPerIP := maxPerIP }

/-- Embeds `ConnectionManager.CheckLimit`: reject (without mutation) when the
count has reached the ceiling, otherwise increment and accept. -/
def ConnectionManager.CheckLimit (cm : ConnectionManager) (ip : String) :
    Bool × ConnectionManager :=
  if cm.maxPerIP ≤ mapGet cm.connections ip then
    (false, cm)
  else
    (true, { cm with
             connections := mapSet cm.connections ip (mapGet cm.connections ip + 1) })

/-- Embeds `ConnectionManager.Release`: decrement only when the count is
positive, then delete the entry when the count reads zero. -/
def ConnectionManager.Release (cm : ConnectionManager) (ip : String) :
    ConnectionManager :=
  let c1 := if 0 < mapGet cm.connections ip then
              mapSet cm.connections ip (mapGet cm.connections ip - 1)
            else
              cm.connections
  let c2 := if mapGet c1 ip = 0 then mapDelete c1 ip else c1
  { cm with connections := c2 }

/-- Embeds `ConnectionManager.GetConnectionCount`. -/
def ConnectionManager.GetConnectionCount (cm : ConnectionManager) (ip : String) : Int :=
  mapGet cm.connections ip

/-- An admission-table operation: a `CheckLimit` or a `Release` call. -/
inductive AdmOp where
  | check (ip : String)
  | release (ip : String)
deriving DecidableEq, Repr

/-- Runs a sequence of admission-table operations. -/
def runOps (cm : ConnectionManager) : List AdmOp → ConnectionManager
  | [] => cm
  | AdmOp.check ip :: rest => runOps (cm.CheckLimit ip).2 rest
  | AdmOp.release ip :: rest => runOps (cm.Release ip) rest

/-! ## WebSocket handler (handleWebSocket) -/

/-- Server configuration constant: max concurrent connections per IP. -/
def maxConnectionsPerIP : Int := 50

/-- The handler's answer to a connection attempt: proceed with the upgrade,
or an `http.Error` with `StatusTooManyRequests`. -/
inductive AdmissionResponse where
  | accepted
  | tooManyRequests
deriving DecidableEq, Repr

/-- Embeds the admission step of `handleWebSocket`: `CheckLimit` on the
remote address decides between rejection with a 429 response and upgrade. -/
def handleWebSocketAdmission (cm : ConnectionManager) (remoteAddr : String) :
    AdmissionResponse × ConnectionManager :=
  let r := cm.CheckLimit remoteAddr
  if r.1 then (AdmissionResponse.accepted, r.2) else (AdmissionResponse.tooManyRequests, r.2)

/-- Runs a sequence of connection attempts through the handler's admission
step, collecting the responses. -/
def runAttempts (cm : ConnectionManager) :
    List String → List AdmissionResponse × ConnectionManager
  | [] => ([], cm)
  | a :: rest =>
    let r := handleWebSocketAdmission cm a
    let rs := runAttempts r.2 rest
    (r.1 :: rs.1, rs.2)

/-! ## Message loop of handleWebSocket -/

/-- One iteration's environment input to the handler's message loop: a
successfully read message together with the success of the echoing write, or
a read error. -/
inductive LoopEvent where
  | msg (data : String) (writeOk : Bool)
  | readErr
deriving DecidableEq, Repr

/-- How the message loop can end.  `rateLimitExceeded` is the exit the
specification claims for a `false` gate answer. -/
inductive LoopExit where
  | readError
  | writeError
  | rateLimitExceeded
deriving DecidableEq, Repr

/-- The echo reply written back for a message. -/
def echoMsg (s : String) : String := "Server echoes: " ++ s

/-- Embeds the message loop of `handleWebSocket`: read from the raw
connection, break on a read error, echo, break on a write error.  Returns
the echoes successfully written and the exit, `none` when the supplied
events are exhausted with the loop still running. -/
def handleMessageLoop : List LoopEvent → List String → List String × Option LoopExit
  | [], acc => (acc.reverse, none)
  | LoopEvent.readErr :: _, acc => (acc.reverse, some LoopExit.readError)
  | LoopEvent.msg d w :: rest, acc =>
    if w then handleMessageLoop rest (echoMsg d :: acc)
    else (acc.reverse, some LoopExit.writeError)

/-! ## Heartbeat monitors -/

/-- Configurable heartbeat parameters (durations in seconds). -/
structure HeartbeatConfig where
  Interval : Nat
  Timeout : Nat
  MaxMissedPings : Nat
  EnableMetrics : Bool
deriving DecidableEq, Repr

/-- Embeds `DefaultHeartbeatConfig`. -/
def DefaultHeartbeatConfig : HeartbeatConfig :=
  { Interval := 5, Timeout := 3, MaxMissedPings := 2, EnableMetrics := true }

/-- Embeds `DefaultClientHeartbeatConfig`. -/
def DefaultClientHeartbeatConfig : HeartbeatConfig :=
  { Interval := 5, Timeout := 3, MaxMissedPings := 2, EnableMetrics := true }

/-- The atomic heartbeat counters. -/
structure HeartbeatMetrics where
  PingsSent : Int
  PongsReceived : Int
  FailedPings : Int
  AvgLatency : Int
deriving DecidableEq, Repr

/-- The zero-initialized metrics a monitor starts from. -/
def initialMetrics : HeartbeatMetrics :=
  { PingsSent := 0, PongsReceived := 0, FailedPings := 0, AvgLatency := 0 }

/-- Outcome of one `conn.Ping` call.  The monitor never inspects the cause
of an error; `ctxCancelled` only records whether the environment failed the
probe by cancelling the owning context mid-flight. -/
inductive ProbeOutcome where
  | ok (latencyMs : Int)
  | fail (ctxCancelled : Bool)
deriving DecidableEq, Repr

/-- What the environment presents to one iteration of the monitor loop: the
owning context is observed cancelled at the select, or the timer fires and
the probe has the given outcome. -/
inductive HbEvent where
  | cancel
  | tick (r : ProbeOutcome)
deriving DecidableEq, Repr

/-- How a monitor run ended: the context error path, the max-missed-pings
error, or still running after the supplied events. -/
inductive HbOutcome where
  | cancelled
  | maxMissedExceeded
  | running
deriving DecidableEq, Repr

/-- Embeds `EnhancedHeartbeat` as a function of the event trace, carrying
the metrics and the consecutive `missedPings` counter. -/
def EnhancedHeartbeat (cfg : HeartbeatConfig) :
    List HbEvent → HeartbeatMetrics → Nat → HeartbeatMetrics × HbOutcome × Nat
  | [], m, missed => (m, HbOutcome.running, missed)
  | HbEvent.cancel :: _, m, missed => (m, HbOutcome.cancelled, missed)
  | HbEvent.tick r :: rest, m, missed =>
    let m1 := { m with PingsSent := m.PingsSent + 1 }
    match r with
    | ProbeOutcome.fail _ =>
      let m2 := { m1 with FailedPings := m1.FailedPings + 1 }
      if cfg.MaxMissedPings ≤ missed + 1 then
        (m2, HbOutcome.maxMissedExceeded, missed + 1)
      else
        EnhancedHeartbeat cfg rest m2 (missed + 1)
    | ProbeOutcome.ok lat =>
      EnhancedHeartbeat cfg rest
        { m1 with AvgLatency := lat, PongsReceived := m1.PongsReceived + 1 } 0

/-- Embeds `ClientHeartbeat`, the client-side monitor, which differs from
`EnhancedHeartbeat` only by its log statements. -/
def ClientHeartbeat (cfg : HeartbeatConfig) :
    List HbEvent → HeartbeatMetrics → Nat → HeartbeatMetrics × HbOutcome × Nat
  | [], m, missed => (m, HbOutcome.running, missed)
  | HbEvent.cancel :: _, m, missed => (m, HbOutcome.cancelled, missed)
  | HbEvent.tick r :: rest, m, missed =>
    let m1 := { m with PingsSent := m.PingsSent + 1 }
    match r with
    | ProbeOutcome.fail _ =>
      let m2 := { m1 with FailedPings := m1.FailedPings + 1 }
      if cfg.MaxMissedPings ≤ missed + 1 then
        (m2, HbOutcome.maxMissedExceeded, missed + 1)
      else
        ClientHeartbeat cfg rest m2 (missed + 1)
    | ProbeOutcome.ok lat =>
      ClientHeartbeat cfg rest
        { m1 with AvgLatency := lat, PongsReceived := m1.PongsReceived + 1 } 0

/-! ## Helper lemmas about the admission table -/

lemma mapGet_mapSet_self (m : ConnTable) (k : String) (v : Int) :
    mapGet (mapSet m k v) k = v := by
  induction m with
  | nil => simp [mapSet, mapGet]
  | cons p rest ih =>
    by_cases h : p.1 = k
    · simp [mapSet, h, mapGet]
    · simp [mapSet, h, mapGet, ih]

lemma mem_mapSet {p : String × Int} {m : ConnTable} {k : String} {v : Int}
    (h : p ∈ mapSet m k v) : p = (k, v) ∨ p ∈ m := by
  induction m with
  | nil =>
    simp [mapSet] at h
    exact Or.inl h
  | cons q rest ih =>
    by_cases hq : q.1 = k
    · rw [mapSet, if_pos hq] at h
      rcases List.mem_cons.mp h with h1 | h1
      · exact Or.inl h1
      · exact Or.inr (List.mem_cons_of_mem _ h1)
    · rw [mapSet, if_neg hq] at h
      rcases List.mem_cons.mp h with h1 | h1
      · exact Or.inr (h1 ▸ List.mem_cons_self _ _)
      · rcases ih h1 with h2 | h2
        · exact Or.inl h2
        · exact Or.inr (List.mem_cons_of_mem _ h2)

lemma mem_mapDelete {p : String × Int} {m : ConnTable} {k : String}
    (h : p ∈ mapDelete m k) : p ∈ m ∧ p.1 ≠ k := by
  induction m with
  | nil => simp [mapDelete] at h
  | cons q rest ih =>
    by_cases hq : q.1 = k
    · rw [mapDelete, if_pos hq] at h
      exact ⟨List.mem_cons_of_mem _ (ih h).1, (ih h).2⟩
    · rw [mapDelete, if_neg hq] at h
      rcases List.mem_cons.mp h with h1 | h1
      · exact ⟨h1 ▸ List.mem_cons_self _ _, h1 ▸ hq⟩
      · exact ⟨List.mem_cons_of_mem _ (ih h1).1, (ih h1).2⟩

lemma hasEntry_false_mapGet {m : ConnTable} {k : String}
    (h : hasEntry m k = false) : mapGet m k = 0 := by
  induction m with
  | nil => simp [mapGet]
  | cons p rest ih =>
    by_cases hp : p.1 = k
    · rw [hasEntry, if_pos hp] at h
      exact absurd h (by simp)
    · rw [hasEntry, if_neg hp] at h
      rw [mapGet, if_neg hp]
      exact ih h

lemma hasEntry_false_mapDelete {m : ConnTable} {k : String}
    (h : hasEntry m k = false) : mapDelete m k = m := by
  induction m with
  | nil => simp [mapDelete]
  | cons p rest ih =>
    by_cases hp : p.1 = k
    · rw [hasEntry, if_pos hp] at h
      exact absurd h (by simp)
    · rw [hasEntry, if_neg hp] at h
      rw [mapDelete, if_neg hp, ih h]

lemma hasEntry_true_exists {m : ConnTable} {k : String}
    (h : hasEntry m k = true) : ∃ p, p ∈ m ∧ p.1 = k ∧ mapGet m k = p.2 := by
  induction m with
  | nil => simp [hasEntry] at h
  | cons p rest ih =>
    by_cases hp : p.1 = k
    · exact ⟨p, List.mem_cons_self _ _, hp, by rw [mapGet, if_pos hp]⟩
    · rw [hasEntry, if_neg hp] at h
      rcases ih h with ⟨q, hq1, hq2, hq3⟩
      exact ⟨q, List.mem_cons_of_mem _ hq1, hq2, by rw [mapGet, if_neg hp]; exact hq3⟩

/-- The invariant of the admission table: every entry holds a count between
1 and the ceiling. -/
def cmInv (cm : ConnectionManager) : Prop :=
  ∀ p ∈ cm.connections, 1 ≤ p.2 ∧ p.2 ≤ cm.maxPerIP

lemma mapGet_nonneg_of_inv {cm : ConnectionManager} (h : cmInv cm) (ip : String) :
    0 ≤ mapGet cm.connections ip := by
  cases he : hasEntry cm.connections ip with
  | false => rw [hasEntry_false_mapGet he]
  | true =>
    rcases hasEntry_true_exists he with ⟨p, hp1, _, hp3⟩
    rw [hp3]
    exact le_trans (by norm_num) (h p hp1).1

lemma mapGet_le_max_of_pos {cm : ConnectionManager} (h : cmInv cm) {ip : String}
    (hpos : 0 < mapGet cm.connections ip) : mapGet cm.connections ip ≤ cm.maxPerIP := by
  cases he : hasEntry cm.connections ip with
  | false => rw [hasEntry_false_mapGet he] at hpos; omega
  | true =>
    rcases hasEntry_true_exists he with ⟨p, hp1, _, hp3⟩
    rw [hp3]
    exact (h p hp1).2

lemma cmInv_CheckLimit {cm : ConnectionManager} (h : cmInv cm) (ip : String) :
    cmInv (cm.CheckLimit ip).2 := by
  by_cases hle : cm.maxPerIP ≤ mapGet cm.connections ip
  · simpa [ConnectionManager.CheckLimit, hle] using h
  · intro p hp
    simp only [ConnectionManager.CheckLimit, if_neg hle] at hp ⊢
    rcases mem_mapSet hp with h1 | h1
    · subst h1
      have h0 := mapGet_nonneg_of_inv h ip
      show 1 ≤ mapGet cm.connections ip + 1 ∧ mapGet cm.connections ip + 1 ≤ cm.maxPerIP
      omega
    · exact h p h1

lemma cmInv_Release {cm : ConnectionManager} (h : cmInv cm) (ip : String) :
    cmInv (cm.Release ip) := by
  intro p hp
  simp only [ConnectionManager.Release] at hp ⊢
  by_cases hpos : 0 < mapGet cm.connections ip
  · rw [if_pos hpos] at hp
    by_cases hz : mapGet (mapSet cm.connections ip (mapGet cm.connections ip - 1)) ip = 0
    · rw [if_pos hz] at hp
      rcases mem_mapDelete hp with ⟨hp1, hp2⟩
      rcases mem_mapSet hp1 with h1 | h1
      · exact absurd (congrArg Prod.fst h1) hp2
      · exact h p h1
    · rw [if_neg hz] at hp
      rw [mapGet_mapSet_self] at hz
      rcases mem_mapSet hp with h1 | h1
      · subst h1
        have hle := mapGet_le_max_of_pos h hpos
        show 1 ≤ mapGet cm.connections ip - 1 ∧ mapGet cm.connections ip - 1 ≤ cm.maxPerIP
        omega
      · exact h p h1
  · rw [if_neg hpos] at hp
    by_cases hz : mapGet cm.connections ip = 0
    · rw [if_pos hz] at hp
      exact h p (mem_mapDelete hp).1
    · rw [if_neg hz] at hp
      exact h p hp

lemma CheckLimit_maxPerIP (cm : ConnectionManager) (ip : String) :
    (cm.CheckLimit ip).2.maxPerIP = cm.maxPerIP := by
  unfold ConnectionManager.CheckLimit
  by_cases hle : cm.maxPerIP ≤ mapGet cm.connections ip <;> simp [hle]

lemma Release_maxPerIP (cm : ConnectionManager) (ip : String) :
    (cm.Release ip).maxPerIP = cm.maxPerIP := rfl

lemma runOps_maxPerIP (cm : ConnectionManager) (ops : List AdmOp) :
    (runOps cm ops).maxPerIP = cm.maxPerIP := by
  induction ops generalizing cm with
  | nil => rfl
  | cons op rest ih =>
    cases op with
    | check ip => rw [runOps, ih, CheckLimit_maxPerIP]
    | release ip => rw [runOps, ih, Release_maxPerIP]

lemma cmInv_runOps {cm : ConnectionManager} (h : cmInv cm) (ops : List AdmOp) :
    cmInv (runOps cm ops) := by
  induction ops generalizing cm with
  | nil => exact h
  | cons op rest ih =>
    cases op with
    | check ip => exact ih (cmInv_CheckLimit h ip)
    | release ip => exact ih (cmInv_Release h ip)

lemma cmInv_new (max : Int) : cmInv (NewConnectionManager max) := by
  intro p hp
  simp [NewConnectionManager] at hp

/-! ## Claim theorems: admission control -/

/-- Claim C2: over every sequence of CheckLimit and Release calls, the
tracked count of an address never goes negative; at the moment a CheckLimit
call returns true the count does not exceed the configured ceiling; and when
the ceiling is already reached, CheckLimit returns false without mutating
any state. -/
theorem checkLimit_release_count_invariant (max : Int) (ops : List AdmOp) (ip : String) :
    0 ≤ (runOps (NewConnectionManager max) ops).GetConnectionCount ip ∧
    (((runOps (NewConnectionManager max) ops).CheckLimit ip).1 = true →
      ((runOps (NewConnectionManager max) ops).CheckLimit ip).2.GetConnectionCount ip ≤ max) ∧
    (max ≤ (runOps (NewConnectionManager max) ops).GetConnectionCount ip →
      ((runOps (NewConnectionManager max) ops).CheckLimit ip).1 = false ∧
      ((runOps (NewConnectionManager max) ops).CheckLimit ip).2
        = runOps (NewConnectionManager max) ops) := by
  have hinv := cmInv_runOps (cmInv_new max) ops
  have hmax : (runOps (NewConnectionManager max) ops).maxPerIP = max := by
    rw [runOps_maxPerIP]; rfl
  refine ⟨mapGet_nonneg_of_inv hinv ip, ?_, ?_⟩
  · intro ht
    by_cases hle : (runOps (NewConnectionManager max) ops).maxPerIP ≤
        mapGet (runOps (NewConnectionManager max) ops).connections ip
    · simp [ConnectionManager.CheckLimit, hle] at ht
    · simp only [ConnectionManager.CheckLimit, if_neg hle,
        ConnectionManager.GetConnectionCount, mapGet_mapSet_self]
      rw [hmax] at hle
      change mapGet (runOps (NewConnectionManager max) ops).connections ip + 1 ≤ max
      omega
  · intro hge
    have hle : (runOps (NewConnectionManager max) ops).maxPerIP ≤
        mapGet (runOps (NewConnectionManager max) ops).connections ip := by
      rw [hmax]; exact hge
    simp [ConnectionManager.CheckLimit, hle]

/-- Witness for C2: with ceiling 2 and two connections already admitted for
address a, CheckLimit rejects without mutation; with one admitted, an
accepted CheckLimit leaves the count within the ceiling. -/
theorem checkLimit_release_count_invariant_witness :
    (((runOps (NewConnectionManager 2) [AdmOp.check "a", AdmOp.check "a"]).CheckLimit "a").1 = false ∧
      ((runOps (NewConnectionManager 2) [AdmOp.check "a", AdmOp.check "a"]).CheckLimit "a").2
        = runOps (NewConnectionManager 2) [AdmOp.check "a", AdmOp.check "a"]) ∧
    ((runOps (NewConnectionManager 2) [AdmOp.check "a"]).CheckLimit "a").2.GetConnectionCount "a" ≤ 2 := by
  refine ⟨?_, ?_⟩
  · exact (checkLimit_release_count_invariant 2 [AdmOp.check "a", AdmOp.check "a"] "a").2.2
      (by decide)
  · exact (checkLimit_release_count_invariant 2 [AdmOp.check "a"] "a").2.1 (by decide)

/-- Claim C8: after any sequence of CheckLimit and Release calls the
admission table never holds an entry with count 0 — every entry present has
count at least 1, and an address whose count reads zero has no entry. -/
theorem admission_table_entries_positive (max : Int) (ops : List AdmOp) (ip : String) :
    (∀ p ∈ (runOps (NewConnectionManager max) ops).connections, 1 ≤ p.2) ∧
    ((runOps (NewConnectionManager max) ops).GetConnectionCount ip = 0 →
      hasEntry (runOps (NewConnectionManager max) ops).connections ip = false) := by
  have hinv := cmInv_runOps (cmInv_new max) ops
  refine ⟨fun p hp => (hinv p hp).1, fun h0 => ?_⟩
  cases he : hasEntry (runOps (NewConnectionManager max) ops).connections ip with
  | false => rfl
  | true =>
    rcases hasEntry_true_exists he with ⟨p, hp1, _, hp3⟩
    have h1 := (hinv p hp1).1
    rw [ConnectionManager.GetConnectionCount] at h0
    rw [h0] at hp3
    omega

/-- Witness for C8: after one admission and one release for address a, the
count reads zero and the entry is gone. -/
theorem admission_table_entries_positive_witness :
    hasEntry (runOps (NewConnectionManager 1)
        [AdmOp.check "a", AdmOp.release "a"]).connections "a" = false := by
  exact (admission_table_entries_positive 1 [AdmOp.check "a", AdmOp.release "a"] "a").2
    (by decide)

/-- Claim C9: Release on an address with no entry in the admission table
leaves the manager unchanged, and its count still reads 0 afterward. -/
theorem release_absent_address_noop (cm : ConnectionManager) (ip : String)
    (h : hasEntry cm.connections ip = false) :
    cm.Release ip = cm ∧ (cm.Release ip).GetConnectionCount ip = 0 := by
  have hg : mapGet cm.connections ip = 0 := hasEntry_false_mapGet h
  have heq : cm.Release ip = cm := by
    simp [ConnectionManager.Release, hg, hasEntry_false_mapDelete h]
  exact ⟨heq, by rw [heq, ConnectionManager.GetConnectionCount, hg]⟩

/-- Witness for C9: releasing address b on a table holding only address a
changes nothing. -/
theorem release_absent_address_noop_witness :
    ConnectionManager.Release { connections := [("a", 2)], maxPerIP := 50 } "b"
        = { connections := [("a", 2)], maxPerIP := 50 } ∧
    (ConnectionManager.Release { connections := [("a", 2)], maxPerIP := 50 } "b").GetConnectionCount "b" = 0 := by
  exact release_absent_address_noop { connections := [("a", 2)], maxPerIP := 50 } "b" (by decide)

/-- Claim C3: with the configured ceiling of 50, fifty connection attempts
from address 10.0.0.1 are accepted, the 51st is rejected with the
StatusTooManyRequests response, and after one Release exactly one further
attempt is accepted, the one after it being rejected again. -/
theorem per_ip_ceiling_end_to_end :
    (runAttempts (NewConnectionManager maxConnectionsPerIP)
        (List.replicate 51 "10.0.0.1")).1
      = List.replicate 50 AdmissionResponse.accepted ++ [AdmissionResponse.tooManyRequests] ∧
    (runAttempts (NewConnectionManager maxConnectionsPerIP)
        (List.replicate 51 "10.0.0.1")).2.GetConnectionCount "10.0.0.1" = 50 ∧
    (handleWebSocketAdmission
        ((runAttempts (NewConnectionManager maxConnectionsPerIP)
            (List.replicate 51 "10.0.0.1")).2.Release "10.0.0.1") "10.0.0.1").1
      = AdmissionResponse.accepted ∧
    (handleWebSocketAdmission
        (handleWebSocketAdmission
            ((runAttempts (NewConnectionManager maxConnectionsPerIP)
                (List.replicate 51 "10.0.0.1")).2.Release "10.0.0.1") "10.0.0.1").2 "10.0.0.1").1
      = AdmissionResponse.tooManyRequests := by
  decide

/-! ## Claim theorems: rate limiting -/

/-- Claim C4: for both limiter directions, a spaced observation resets the
violation counter to 0 and returns true; a rapid observation increments the
counter by one; from a clean state, maxViolations + 1 rapid observations
make the call return false on the last one — for RateLimitClientPing and
for RateLimitPing alike; and the first observation of a kind returns true
and seeds the timestamp. -/
theorem rate_limit_observe_behavior :
    (∀ (cs : ConnectionState) (t now : Nat), cs.lastClientPing = some t →
        minPingInterval ≤ now - t →
        (cs.RateLimitClientPing now).1 = true ∧
        (cs.RateLimitClientPing now).2.clientViolations = 0) ∧
    (∀ (cs : ConnectionState) (now : Nat), sinceBelowMin cs.lastPing now = false →
        (cs.RateLimitPing now).1 = true ∧
        (cs.RateLimitPing now).2.violations = 0) ∧
    (∀ (cs : ConnectionState) (t now : Nat), cs.lastClientPing = some t →
        now - t < minPingInterval →
        (cs.RateLimitClientPing now).2.clientViolations = cs.clientViolations + 1) ∧
    (∀ (cs : ConnectionState) (now : Nat), sinceBelowMin cs.lastPing now = true →
        (cs.RateLimitPing now).2.violations = cs.violations + 1) ∧
    (∀ t0 t1 t2 t3 t4 : Nat,
        t1 - t0 < minPingInterval → t2 - t1 < minPingInterval →
        t3 - t2 < minPingInterval → t4 - t3 < minPingInterval →
        (runClientPings
            { lastPing := none, violations := 0,
              lastClientPing := some t0, clientViolations := 0 }
            [t1, t2, t3, t4]).1 = [true, true, true, false]) ∧
    (∀ t0 t1 t2 t3 t4 : Nat,
        t1 - t0 < minPingInterval → t2 - t1 < minPingInterval →
        t3 - t2 < minPingInterval → t4 - t3 < minPingInterval →
        (runPings (GetOrCreateState t0) [t1, t2, t3, t4]).1
          = [true, true, true, false]) ∧
    (∀ (cs : ConnectionState) (now : Nat), cs.lastClientPing = none →
        (cs.RateLimitClientPing now).1 = true ∧
        (cs.RateLimitClientPing now).2.lastClientPing = some now) ∧
    (∀ (cs : ConnectionState) (now : Nat), cs.violations = 0 →
        (cs.RateLimitPing now).1 = true ∧
        (cs.RateLimitPing now).2.lastPing = some now) := by
  refine ⟨?_, ?_, ?_, ?_, ?_, ?_, ?_, ?_⟩
  · intro cs t now hlast hgap
    have hlt : ¬ now - t < minPingInterval := not_lt.mpr hgap
    simp [ConnectionState.RateLimitClientPing, hlast, hlt]
  · intro cs now hslow
    simp [ConnectionState.RateLimitPing, hslow]
  · intro cs t now hlast hgap
    simp only [ConnectionState.RateLimitClientPing, hlast, if_pos hgap]
    by_cases hv : maxViolations < cs.clientViolations + 1
    · simp [hv]
    · simp [hv]
  · intro cs now hfast
    simp only [ConnectionState.RateLimitPing, hfast, if_pos rfl, if_true]
    by_cases hv : maxViolations < cs.violations + 1
    · simp [hv]
    · simp [hv]
  · intro t0 t1 t2 t3 t4 h1 h2 h3 h4
    simp [runClientPings, ConnectionState.RateLimitClientPing,
      h1, h2, h3, h4, maxViolations]
  · intro t0 t1 t2 t3 t4 h1 h2 h3 h4
    simp [runPings, ConnectionState.RateLimitPing, GetOrCreateState, sinceBelowMin,
      h1, h2, h3, h4, maxViolations]
  · intro cs now hlast
    simp [ConnectionState.RateLimitClientPing, hlast]
  · intro cs now hzero
    by_cases hfast : sinceBelowMin cs.lastPing now = true
    · simp [ConnectionState.RateLimitPing, hfast, hzero, maxViolations]
    · simp only [Bool.not_eq_true] at hfast
      simp [ConnectionState.RateLimitPing, hfast]

/-- Witness for C4 at concrete states and times. -/
theorem rate_limit_observe_behavior_witness :
    ((ConnectionState.RateLimitClientPing
        { lastPing := none, violations := 0,
          lastClientPing := some 100, clientViolations := 2 } 115).1 = true ∧
      (ConnectionState.RateLimitClientPing
        { lastPing := none, violations := 0,
          lastClientPing := some 100, clientViolations := 2 } 115).2.clientViolations = 0) ∧
    ((ConnectionState.RateLimitPing (GetOrCreateState 100) 115).1 = true ∧
      (ConnectionState.RateLimitPing (GetOrCreateState 100) 115).2.violations = 0) ∧
    (ConnectionState.RateLimitClientPing
        { lastPing := none, violations := 0,
          lastClientPing := some 100, clientViolations := 1 } 103).2.clientViolations = 2 ∧
    (ConnectionState.RateLimitPing (GetOrCreateState 100) 103).2.violations = 1 ∧
    (runClientPings
        { lastPing := none, violations := 0,
          lastClientPing := some 100, clientViolations := 0 }
        [101, 102, 103, 104]).1 = [true, true, true, false] ∧
    (runPings (GetOrCreateState 100) [101, 102, 103, 104]).1
      = [true, true, true, false] ∧
    ((ConnectionState.RateLimitClientPing freshConnectionState 7).1 = true ∧
      (ConnectionState.RateLimitClientPing freshConnectionState 7).2.lastClientPing = some 7) ∧
    ((ConnectionState.RateLimitPing (GetOrCreateState 100) 103).1 = true ∧
      (ConnectionState.RateLimitPing (GetOrCreateState 100) 103).2.lastPing = some 103) := by
  refine ⟨?_, ?_, ?_, ?_, ?_, ?_, ?_, ?_⟩
  · exact rate_limit_observe_behavior.1 _ 100 115 rfl (by decide)
  · exact rate_limit_observe_behavior.2.1 _ 115 (by decide)
  · exact rate_limit_observe_behavior.2.2.1 _ 100 103 rfl (by decide)
  · exact rate_limit_observe_behavior.2.2.2.1 _ 103 (by decide)
  · exact rate_limit_observe_behavior.2.2.2.2.1 100 101 102 103 104
      (by decide) (by decide) (by decide) (by decide)
  · exact rate_limit_observe_behavior.2.2.2.2.2.1 100 101 102 103 104
      (by decide) (by decide) (by decide) (by decide)
  · exact rate_limit_observe_behavior.2.2.2.2.2.2.1 freshConnectionState 7 rfl
  · exact rate_limit_observe_behavior.2.2.2.2.2.2.2 (GetOrCreateState 100) 103 rfl

/-- Counterexample to claim C7: driven from the fresh state by five rapid
client observations, the limiter returns false on the fifth with the counter
at 4, past the maximum of 3 — yet an observation arriving minPingInterval
later is answered true and the counter is reset to 0 in place. -/
theorem rate_limit_no_reset_counterexample :
    (runClientPings freshConnectionState [100, 101, 102, 103, 104]).1
      = [true, true, true, true, false] ∧
    (runClientPings freshConnectionState [100, 101, 102, 103, 104]).2.clientViolations = 4 ∧
    maxViolations < 4 ∧
    ((runClientPings freshConnectionState
        [100, 101, 102, 103, 104]).2.RateLimitClientPing 114).1 = true ∧
    ((runClientPings freshConnectionState
        [100, 101, 102, 103, 104]).2.RateLimitClientPing 114).2.clientViolations = 0 := by
  decide

/-- Claim C7 as amended: once the violation counter has exceeded the
maximum, every observation arriving sooner than minPingInterval after the
recorded timestamp still returns false; but an observation arriving at or
after minPingInterval resets the counter to 0 in place and returns true, so
the state rejects persistently only under continued rapid observations. -/
theorem rate_limit_reject_only_while_rapid :
    (∀ (cs : ConnectionState) (t now : Nat), maxViolations < cs.clientViolations →
        cs.lastClientPing = some t → now - t < minPingInterval →
        (cs.RateLimitClientPing now).1 = false ∧
        maxViolations < (cs.RateLimitClientPing now).2.clientViolations) ∧
    (∀ (cs : ConnectionState) (t now : Nat), maxViolations < cs.clientViolations →
        cs.lastClientPing = some t → minPingInterval ≤ now - t →
        (cs.RateLimitClientPing now).1 = true ∧
        (cs.RateLimitClientPing now).2.clientViolations = 0) ∧
    (∀ (cs : ConnectionState) (now : Nat), maxViolations < cs.violations →
        sinceBelowMin cs.lastPing now = true →
        (cs.RateLimitPing now).1 = false) ∧
    (∀ (cs : ConnectionState) (now : Nat), maxViolations < cs.violations →
        sinceBelowMin cs.lastPing now = false →
        (cs.RateLimitPing now).1 = true ∧
        (cs.RateLimitPing now).2.violations = 0) := by
  refine ⟨?_, ?_, ?_, ?_⟩
  · intro cs t now hv hlast hfast
    have hv1 : maxViolations < cs.clientViolations + 1 := Nat.lt_succ_of_lt hv
    simp [ConnectionState.RateLimitClientPing, hlast, hfast, hv1]
  · intro cs t now hv hlast hslow
    have hlt : ¬ now - t < minPingInterval := not_lt.mpr hslow
    simp [ConnectionState.RateLimitClientPing, hlast, hlt]
  · intro cs now hv hfast
    have hv1 : maxViolations < cs.violations + 1 := Nat.lt_succ_of_lt hv
    simp [ConnectionState.RateLimitPing, hfast, hv1]
  · intro cs now hv hslow
    simp [ConnectionState.RateLimitPing, hslow]

/-- Witness for the amended C7 at a concrete over-threshold state. -/
theorem rate_limit_reject_only_while_rapid_witness :
    ((ConnectionState.RateLimitClientPing
        { lastPing := none, violations := 0,
          lastClientPing := some 104, clientViolations := 4 } 105).1 = false ∧
      maxViolations < (ConnectionState.RateLimitClientPing
        { lastPing := none, violations := 0,
          lastClientPing := some 104, clientViolations := 4 } 105).2.clientViolations) ∧
    ((ConnectionState.RateLimitClientPing
        { lastPing := none, violations := 0,
          lastClientPing := some 104, clientViolations := 4 } 114).1 = true ∧
      (ConnectionState.RateLimitClientPing
        { lastPing := none, violations := 0,
          lastClientPing := some 104, clientViolations := 4 } 114).2.clientViolations = 0) ∧
    (ConnectionState.RateLimitPing
        { lastPing := some 104, violations := 4,
          lastClientPing := none, clientViolations := 0 } 105).1 = false ∧
    ((ConnectionState.RateLimitPing
        { lastPing := some 104, violations := 4,
          lastClientPing := none, clientViolations := 0 } 114).1 = true ∧
      (ConnectionState.RateLimitPing
        { lastPing := some 104, violations := 4,
          lastClientPing := none, clientViolations := 0 } 114).2.violations = 0) := by
  refine ⟨?_, ?_, ?_, ?_⟩
  · exact rate_limit_reject_only_while_rapid.1 _ 104 105 (by decide) rfl (by decide)
  · exact rate_limit_reject_only_while_rapid.2.1 _ 104 114 (by decide) rfl (by decide)
  · exact rate_limit_reject_only_while_rapid.2.2.1 _ 105 (by decide) (by decide)
  · exact rate_limit_reject_only_while_rapid.2.2.2 _ 114 (by decide) (by decide)

/-! ## Claim theorems: heartbeat monitors -/

/-- Claim C5: the heartbeat monitor terminates with the max-missed-pings
failure carrying the accumulated metrics exactly when the consecutive-miss
count reaches MaxMissedPings: a consecutive failure reaching the threshold
terminates it, a failure below the threshold lets it continue, with
MaxMissedPings = 2 two consecutive failures terminate it, and one failure
followed by a success resets the miss counter to 0 and the monitor
continues, recording the latency and incrementing the pong counter. -/
theorem heartbeat_max_missed_termination :
    (∀ (cfg : HeartbeatConfig) (m : HeartbeatMetrics) (missed : Nat) (b : Bool)
        (rest : List HbEvent), cfg.MaxMissedPings ≤ missed + 1 →
        EnhancedHeartbeat cfg (HbEvent.tick (ProbeOutcome.fail b) :: rest) m missed
          = ({ m with PingsSent := m.PingsSent + 1, FailedPings := m.FailedPings + 1 },
             HbOutcome.maxMissedExceeded, missed + 1)) ∧
    (∀ (cfg : HeartbeatConfig) (m : HeartbeatMetrics) (missed : Nat) (b : Bool)
        (rest : List HbEvent), missed + 1 < cfg.MaxMissedPings →
        EnhancedHeartbeat cfg (HbEvent.tick (ProbeOutcome.fail b) :: rest) m missed
          = EnhancedHeartbeat cfg rest
              { m with PingsSent := m.PingsSent + 1, FailedPings := m.FailedPings + 1 }
              (missed + 1)) ∧
    (∀ b1 b2 : Bool,
        EnhancedHeartbeat DefaultHeartbeatConfig
            [HbEvent.tick (ProbeOutcome.fail b1), HbEvent.tick (ProbeOutcome.fail b2)]
            initialMetrics 0
          = ({ PingsSent := 2, PongsReceived := 0, FailedPings := 2, AvgLatency := 0 },
             HbOutcome.maxMissedExceeded, 2)) ∧
    (∀ (cfg : HeartbeatConfig) (m : HeartbeatMetrics) (b : Bool) (lat : Int)
        (rest : List HbEvent), 2 ≤ cfg.MaxMissedPings →
        EnhancedHeartbeat cfg
            (HbEvent.tick (ProbeOutcome.fail b) :: HbEvent.tick (ProbeOutcome.ok lat) :: rest)
            m 0
          = EnhancedHeartbeat cfg rest
              { PingsSent := m.PingsSent + 1 + 1, PongsReceived := m.PongsReceived + 1,
                FailedPings := m.FailedPings + 1, AvgLatency := lat } 0) := by
  refine ⟨?_, ?_, ?_, ?_⟩
  · intro cfg m missed b rest hth
    simp [EnhancedHeartbeat, hth]
  · intro cfg m missed b rest hlt
    have h : ¬ cfg.MaxMissedPings ≤ missed + 1 := by omega
    simp [EnhancedHeartbeat, h]
  · decide
  · intro cfg m b lat rest hge
    have h : ¬ cfg.MaxMissedPings ≤ 0 + 1 := by omega
    simp [EnhancedHeartbeat, h]

/-- Witness for C5 at the default configuration and concrete traces. -/
theorem heartbeat_max_missed_termination_witness :
    EnhancedHeartbeat DefaultHeartbeatConfig
        [HbEvent.tick (ProbeOutcome.fail false)] initialMetrics 1
      = ({ PingsSent := 1, PongsReceived := 0, FailedPings := 1, AvgLatency := 0 },
         HbOutcome.maxMissedExceeded, 2) ∧
    EnhancedHeartbeat DefaultHeartbeatConfig
        [HbEvent.tick (ProbeOutcome.fail false)] initialMetrics 0
      = EnhancedHeartbeat DefaultHeartbeatConfig []
          { PingsSent := 1, PongsReceived := 0, FailedPings := 1, AvgLatency := 0 } 1 ∧
    EnhancedHeartbeat DefaultHeartbeatConfig
        [HbEvent.tick (ProbeOutcome.fail false), HbEvent.tick (ProbeOutcome.fail true)]
        initialMetrics 0
      = ({ PingsSent := 2, PongsReceived := 0, FailedPings := 2, AvgLatency := 0 },
         HbOutcome.maxMissedExceeded, 2) ∧
    EnhancedHeartbeat DefaultHeartbeatConfig
        [HbEvent.tick (ProbeOutcome.fail false), HbEvent.tick (ProbeOutcome.ok 12)]
        initialMetrics 0
      = EnhancedHeartbeat DefaultHeartbeatConfig []
          { PingsSent := 2, PongsReceived := 1, FailedPings := 1, AvgLatency := 12 } 0 := by
  refine ⟨?_, ?_, ?_, ?_⟩
  · exact heartbeat_max_missed_termination.1 DefaultHeartbeatConfig initialMetrics 1 false []
      (by decide)
  · exact heartbeat_max_missed_termination.2.1 DefaultHeartbeatConfig initialMetrics 0 false []
      (by decide)
  · exact heartbeat_max_missed_termination.2.2.1 false true
  · have h := heartbeat_max_missed_termination.2.2.2 DefaultHeartbeatConfig initialMetrics
      false 12 [] (by decide)
    simpa using h

/-- Counterexample to claim C6: with MaxMissedPings = 2 and one miss already
accumulated, the probe interrupted by the cancellation of the owning context
(the tick whose outcome is fail true: conn.Ping returned the context error)
drives the monitor into the max-missed-pings failure result — it does not
return the cancellation indication. -/
theorem heartbeat_cancel_mid_probe_counterexample :
    EnhancedHeartbeat DefaultHeartbeatConfig
        [HbEvent.tick (ProbeOutcome.fail false), HbEvent.tick (ProbeOutcome.fail true)]
        initialMetrics 0
      = ({ PingsSent := 2, PongsReceived := 0, FailedPings := 2, AvgLatency := 0 },
         HbOutcome.maxMissedExceeded, 2) := by
  decide

/-- Claim C6 as amended: cancellation observed at the loop's select returns
the accumulated metrics with the cancellation indication; a cancellation
interrupting an in-flight probe is counted as a probe failure — when the
miss count stays below MaxMissedPings the cancellation is reported at the
next iteration, but when that failure reaches MaxMissedPings the monitor
returns the max-missed-pings failure result instead. -/
theorem heartbeat_cancellation_reporting :
    (∀ (cfg : HeartbeatConfig) (m : HeartbeatMetrics) (missed : Nat) (rest : List HbEvent),
        EnhancedHeartbeat cfg (HbEvent.cancel :: rest) m missed
          = (m, HbOutcome.cancelled, missed)) ∧
    (∀ (cfg : HeartbeatConfig) (m : HeartbeatMetrics) (missed : Nat) (rest : List HbEvent),
        missed + 1 < cfg.MaxMissedPings →
        EnhancedHeartbeat cfg
            (HbEvent.tick (ProbeOutcome.fail true) :: HbEvent.cancel :: rest) m missed
          = ({ m with PingsSent := m.PingsSent + 1, FailedPings := m.FailedPings + 1 },
             HbOutcome.cancelled, missed + 1)) ∧
    (∀ (cfg : HeartbeatConfig) (m : HeartbeatMetrics) (missed : Nat) (rest : List HbEvent),
        cfg.MaxMissedPings ≤ missed + 1 →
        EnhancedHeartbeat cfg (HbEvent.tick (ProbeOutcome.fail true) :: rest) m missed
          = ({ m with PingsSent := m.PingsSent + 1, FailedPings := m.FailedPings + 1 },
             HbOutcome.maxMissedExceeded, missed + 1)) := by
  refine ⟨?_, ?_, ?_⟩
  · intro cfg m missed rest
    simp [EnhancedHeartbeat]
  · intro cfg m missed rest hlt
    have h : ¬ cfg.MaxMissedPings ≤ missed + 1 := by omega
    simp [EnhancedHeartbeat, h]
  · intro cfg m missed rest hth
    simp [EnhancedHeartbeat, hth]

/-- Witness for the amended C6 at the default configuration. -/
theorem heartbeat_cancellation_reporting_witness :
    EnhancedHeartbeat DefaultHeartbeatConfig [HbEvent.cancel] initialMetrics 0
      = (initialMetrics, HbOutcome.cancelled, 0) ∧
    EnhancedHeartbeat DefaultHeartbeatConfig
        [HbEvent.tick (ProbeOutcome.fail true), HbEvent.cancel] initialMetrics 0
      = ({ PingsSent := 1, PongsReceived := 0, FailedPings := 1, AvgLatency := 0 },
         HbOutcome.cancelled, 1) ∧
    EnhancedHeartbeat DefaultHeartbeatConfig
        [HbEvent.tick (ProbeOutcome.fail true)] initialMetrics 1
      = ({ PingsSent := 1, PongsReceived := 0, FailedPings := 1, AvgLatency := 0 },
         HbOutcome.maxMissedExceeded, 2) := by
  refine ⟨?_, ?_, ?_⟩
  · exact heartbeat_cancellation_reporting.1 DefaultHeartbeatConfig initialMetrics 0 []
  · have h := heartbeat_cancellation_reporting.2.1 DefaultHeartbeatConfig initialMetrics 0 []
      (by decide)
    simpa using h
  · have h := heartbeat_cancellation_reporting.2.2 DefaultHeartbeatConfig initialMetrics 1 []
      (by decide)
    simpa using h

/-- Claim C10: ClientHeartbeat and EnhancedHeartbeat implement the same
algorithm — for every configuration, probe-outcome trace and starting
state they produce equal metrics counters and equal results. -/
theorem client_server_heartbeat_equivalent (cfg : HeartbeatConfig)
    (events : List HbEvent) (m : HeartbeatMetrics) (missed : Nat) :
    ClientHeartbeat cfg events m missed = EnhancedHeartbeat cfg events m missed := by
  induction events generalizing m missed with
  | nil => rfl
  | cons e rest ih =>
    cases e with
    | cancel => rfl
    | tick r =>
      cases r with
      | ok lat => simp [ClientHeartbeat, EnhancedHeartbeat, ih]
      | fail b =>
        by_cases h : cfg.MaxMissedPings ≤ missed + 1
        · simp [ClientHeartbeat, EnhancedHeartbeat, h]
        · simp [ClientHeartbeat, EnhancedHeartbeat, h, ih]

/-! ## Claim theorem: the message loop and the rate-limit gate -/

/-- Claim C1 evaluated on the code: the rate-limit gate, when consulted the
way RateLimitedConn.Read consults it, rejects the fifth rapid inbound
message; yet the message loop of handleWebSocket echoes all five messages —
it reads from the raw connection, and on any input it can only exit on a
transport read or write error, never with a rate-limit-exceeded condition. -/
theorem message_loop_bypasses_rate_limit_gate :
    (RateLimitedConnRead (runClientPings freshConnectionState [100, 101, 102, 103]).2 104
        (TransportRead.msg "e")).1 = WsReadResult.rateLimitError 4 ∧
    handleMessageLoop
        [LoopEvent.msg "a" true, LoopEvent.msg "b" true, LoopEvent.msg "c" true,
         LoopEvent.msg "d" true, LoopEvent.msg "e" true] []
      = (["Server echoes: a", "Server echoes: b", "Server echoes: c",
          "Server echoes: d", "Server echoes: e"], none) ∧
    (∀ (events : List LoopEvent) (acc : List String),
        (handleMessageLoop events acc).2 = none ∨
        (handleMessageLoop events acc).2 = some LoopExit.readError ∨
        (handleMessageLoop events acc).2 = some LoopExit.writeError) := by
  refine ⟨by decide, by decide, ?_⟩
  intro events
  induction events with
  | nil => intro acc; exact Or.inl rfl
  | cons e rest ih =>
    intro acc
    cases e with
    | readErr => exact Or.inr (Or.inl rfl)
    | msg d w =>
      cases w with
      | false => exact Or.inr (Or.inr rfl)
      | true => exact ih (echoMsg d :: acc)

end HeartBeat
